import Mathlib

/-
Verification development for the PyroModule tutorial notebook
(src/tutorial/source/modules.ipynb).

The notebook defines small classes (Linear, PyroLinear, BayesianLinear,
Model, NormalModel, GlobalModel, LocalModel, a hierarchical Model) and runs
them under the external probabilistic-programming framework.  The framework
itself (effect handlers, trace recording, the global param store, PyroModule
attribute interception) is not part of this repository, so it is modelled
here from the words of the spec and from the behaviour the notebook prints:
a trace is a record of named sites produced during one execution, an effect
handler intercepts sampling and parameter access for PyroModules only,
parameters synchronize with a global param store, stochastic attributes are
sampled at most once per call of the outermost module, and site names are
composed automatically from attribute paths.

Numeric tensors are idealized over the rationals; randomness is modelled by
a deterministic counter stream, which suffices for every claim checked here
(claims concern names, types, shapes, positivity and freshness of draws,
never distributional statistics).
-/

namespace PyroNb

/-- A tensor, idealized: a shape together with row-major entries over ℚ. -/
structure Tensor where
  shape : List Nat
  entries : List ℚ
deriving DecidableEq

/-- Number of elements of a shape (product of the dimensions). -/
def numel (sh : List Nat) : Nat :=
  sh.foldr (fun a b => a * b) 1

/-- Modelled from the spec: the framework draws pseudo-random values; here a
deterministic counter stream stands in for the RNG, so that successive draws
are fresh and distinct. -/
def freshEntries (r k : Nat) : List ℚ :=
  (List.range k).map (fun i => ((r + i + 1 : Nat) : ℚ))

/-- Draw a tensor of the given shape from the counter stream at state `r`. -/
def drawT (sh : List Nat) (r : Nat) : Tensor :=
  ⟨sh, freshEntries r (numel sh)⟩

/-- Apply a function to every entry of a tensor. -/
def mapEntries (f : ℚ → ℚ) (t : Tensor) : Tensor :=
  ⟨t.shape, t.entries.map f⟩

/-- Entry lookup in a flattened entry list (0 outside the range). -/
def getq (l : List ℚ) (i : Nat) : ℚ :=
  l.getD i 0

/-- Entries of the 2-d matrix product of an (n,k) and a (k,m) tensor. -/
def mmEntries (n k m : Nat) (xs ys : List ℚ) : List ℚ :=
  (List.range (n * m)).map (fun idx =>
    ((List.range k).map (fun t =>
      getq xs (idx / m * k + t) * getq ys (t * m + idx % m))).foldr (· + ·) 0)

/-- The @ operator of the notebook for 2-d tensors (torch matmul). -/
def matmul2 (a b : Tensor) : Option Tensor :=
  match a.shape, b.shape with
  | [n, k], [k2, m] =>
    if k = k2 then some ⟨[n, m], mmEntries n k m a.entries b.entries⟩ else none
  | _, _ => none

/-- Broadcast addition of a (m,) bias to each row of an (n,m) tensor, as in
`self.bias + input_ @ self.weight` of the notebook. -/
def addB (b x : Tensor) : Option Tensor :=
  match b.shape, x.shape with
  | [m], [n, m2] =>
    if m = m2 then
      some ⟨[n, m], (List.range (n * m)).map
        (fun idx => getq b.entries (idx % m) + getq x.entries idx)⟩
    else none
  | _, _ => none

/-- Broadcasting of two shapes, right-aligned, on reversed shapes. -/
def bcastRev : List Nat → List Nat → Option (List Nat)
  | [], ys => some ys
  | x :: xs, [] => some (x :: xs)
  | x :: xs, y :: ys =>
    match bcastRev xs ys with
    | none => none
    | some zs =>
      if x = y then some (x :: zs)
      else if x = 1 then some (y :: zs)
      else if y = 1 then some (x :: zs)
      else none

/-- Shape broadcasting as in torch, failing on incompatible shapes. -/
def broadcastShape (a b : List Nat) : Option (List Nat) :=
  (bcastRev a.reverse b.reverse).map List.reverse

/-- The two kinds of trace sites the notebook prints: param and sample. -/
inductive SiteType where
  | param : SiteType
  | sample : SiteType
deriving DecidableEq

/-- Modelled from the spec: a trace site is a record of one named
random-variable or parameter site, carrying its type, auto-assigned name,
distribution family (for samples) and value. -/
structure Site where
  type : SiteType
  name : String
  fn : String
  value : Tensor
deriving DecidableEq

/-- Modelled from the spec: the mutable state of the external framework
during one traced execution: the global param store, the trace being
recorded, the RNG counter, the stack of active plate sizes, and the
per-call cache that makes PyroSample attributes sample at most once per
call of the outermost module. -/
structure St where
  store : List (String × Tensor)
  trace : List Site
  rng : Nat
  plates : List Nat
  cache : List (String × Tensor)
deriving DecidableEq

/-- The initial framework state: empty param store, empty trace. -/
def st0 : St := ⟨[], [], 0, [], []⟩

/-- An initial state with a given RNG counter. -/
def stR (r : Nat) : St := ⟨[], [], r, [], []⟩

/-- Automatic name composition from the attribute path: a nested attribute
`b` of a submodule named `a` gets the site name `a.b`. -/
def fullName (pfx nm : String) : String :=
  if pfx = "" then nm else pfx ++ "." ++ nm

/-- Parameter constraints used by the notebook: unconstrained reals, or the
positivity constraint of `constraints.positive`. -/
inductive Constraint where
  | real : Constraint
  | positive : Constraint
deriving DecidableEq

/-- Modelled from the spec: the bijection from unconstrained values onto the
strictly positive values used by the positivity constraint (the library uses
exp; a rational analogue with the same signature and positivity is used
here). -/
def posT (u : ℚ) : ℚ :=
  if 0 ≤ u then u + 1 else 1 / (1 - u)

/-- The inverse of `posT` on the strictly positive values. -/
def posInv (v : ℚ) : ℚ :=
  if 1 ≤ v then v - 1 else 1 - 1 / v

/-- The constraint transform from unconstrained to constrained values. -/
def transform1 : Constraint → ℚ → ℚ
  | Constraint.real => fun q => q
  | Constraint.positive => posT

/-- The inverse constraint transform, applied when a PyroParam is stored. -/
def invT : Constraint → ℚ → ℚ
  | Constraint.real => fun q => q
  | Constraint.positive => posInv

/-- A distribution, reduced to what the claims observe: its family name, its
batch shape and its event shape. -/
structure DistSpec where
  family : String
  batch : List Nat
  event : List Nat
deriving DecidableEq

/-- dist.Normal(0, 1): a scalar distribution. -/
def normalS : DistSpec := ⟨"Normal", [], []⟩

/-- dist.LogNormal(0, 1): a scalar distribution. -/
def logNormalS : DistSpec := ⟨"LogNormal", [], []⟩

/-- dist.Gamma(3, 1): a scalar distribution. -/
def gammaS : DistSpec := ⟨"Gamma", [], []⟩

/-- .expand(sh): set the batch shape. -/
def expandD (d : DistSpec) (sh : List Nat) : DistSpec :=
  ⟨d.family, sh, d.event⟩

/-- .to_event(n): move the last n batch dimensions into the event shape. -/
def toEventD (d : DistSpec) (n : Nat) : DistSpec :=
  ⟨d.family, d.batch.take (d.batch.length - n),
    d.batch.drop (d.batch.length - n) ++ d.event⟩

/-- dist.Normal(loc, scale) for tensor arguments: batch shape is the
broadcast of the two argument shapes. -/
def normalOfT (loc scale : Tensor) : Option DistSpec :=
  (broadcastShape loc.shape scale.shape).map (fun b => ⟨"Normal", b, []⟩)

/-- The shape of the plate context, outermost plate first. -/
def platesShape (ps : List Nat) : List Nat := ps.reverse

/-- Modelled from the spec: the value shape of a sample site is the batch
shape broadcast against the enclosing plates, followed by the event shape. -/
def sampleValueShape (s : St) (d : DistSpec) : Option (List Nat) :=
  (broadcastShape (platesShape s.plates) d.batch).map (fun b => b ++ d.event)

/-- Prior expressions of PyroSample attributes: a constant distribution, or
the two callables of self used by the hierarchical model of the notebook,
`lambda self: dist.Normal(self.loc, self.scale)` and
`lambda self: dist.InverseGamma(self.dof, 1)`. -/
inductive PExp where
  | const : DistSpec → PExp
  | normalOf : String → String → PExp
  | invGammaOf : String → PExp
deriving DecidableEq

/-- A leaf attribute of a module: a plain nn.Parameter, a constrained
PyroParam (stored unconstrained, with its constraint), or a PyroSample
prior. -/
inductive Attr where
  | prm : Tensor → Attr
  | pyroPrm : Tensor → Constraint → Attr
  | pyroSmp : PExp → Attr
deriving DecidableEq

/-- The leaf attributes of one module, in registration order. -/
abbrev PModA := List (String × Attr)

/-- Attribute reassignment: the old entry is removed and the new one is
registered at the end, as in the module parameter dictionaries. -/
def setAttrA (attrs : PModA) (nm : String) (a : Attr) : PModA :=
  List.filter (fun p => p.fst != nm) attrs ++ [(nm, a)]

/-- Assignment of PyroParam(init, constraint): the stored value is the
unconstrained image of the initial value under the inverse transform. -/
def pyroParamOf (init : Tensor) (c : Constraint) : Attr :=
  Attr.pyroPrm (mapEntries (invT c) init) c

/-- named_parameters() of a module: plain parameters keep their name, a
PyroParam contributes its name with suffix _unconstrained, and a PyroSample
contributes no parameter. -/
def namedParamsA : PModA → List String
  | [] => []
  | (nm, Attr.prm _) :: rest => nm :: namedParamsA rest
  | (nm, Attr.pyroPrm _ _) :: rest => (nm ++ "_unconstrained") :: namedParamsA rest
  | (_, Attr.pyroSmp _) :: rest => namedParamsA rest

/-- Modelled from the spec: attribute access under the effect handler.  For
a plain nn.Module (isPyro = false) access returns the raw value with no
effect.  For a PyroModule, a plain parameter acts like a pyro.param
statement (synchronizing with the global param store and recorded in the
trace), a PyroParam is read through its constraint transform, and a
PyroSample attribute is sampled at most once per call: a cached value is
returned on repeated access, otherwise its prior (possibly a callable
accessing other attributes of self) is evaluated, a fresh value of the
plate-expanded shape is drawn, recorded in the trace and cached.  The fuel
argument bounds the recursion through callable priors. -/
def accessAttr : Nat → PModA → Bool → String → String → St → Option (Tensor × St)
  | 0, _, _, _, _, _ => none
  | Nat.succ f, attrs, isPyro, pfx, nm, s =>
    match attrs.lookup nm with
    | none => none
    | some (Attr.prm t) =>
      if isPyro then
        let full := fullName pfx nm
        match s.store.lookup full with
        | some v =>
          some (v, { s with trace := s.trace ++ [⟨SiteType.param, full, "", v⟩] })
        | none =>
          some (t, { s with store := s.store ++ [(full, t)],
                            trace := s.trace ++ [⟨SiteType.param, full, "", t⟩] })
      else some (t, s)
    | some (Attr.pyroPrm u c) =>
      let full := fullName pfx nm
      let v := mapEntries (transform1 c) u
      let s1 := if (s.store.lookup full).isSome then s
                else { s with store := s.store ++ [(full, v)] }
      some (v, { s1 with trace := s1.trace ++ [⟨SiteType.param, full, "", v⟩] })
    | some (Attr.pyroSmp p) =>
      let full := fullName pfx nm
      match s.cache.lookup full with
      | some v => some (v, s)
      | none =>
        let dres : Option (DistSpec × St) :=
          match p with
          | PExp.const d => some (d, s)
          | PExp.normalOf a b => do
            let (ta, s1) ← accessAttr f attrs isPyro pfx a s
            let (tb, s2) ← accessAttr f attrs isPyro pfx b s1
            let bsh ← broadcastShape ta.shape tb.shape
            some (⟨"Normal", bsh, []⟩, s2)
          | PExp.invGammaOf a => do
            let (ta, s1) ← accessAttr f attrs isPyro pfx a s
            some (⟨"InverseGamma", ta.shape, []⟩, s1)
        match dres with
        | none => none
        | some (d, s1) =>
          match sampleValueShape s1 d with
          | none => none
          | some sh =>
            let t := drawT sh s1.rng
            some (t, { s1 with
              rng := s1.rng + numel sh,
              trace := s1.trace ++ [⟨SiteType.sample, full, d.family, t⟩],
              cache := s1.cache ++ [(full, t)] })

/-- Modelled from the spec: an explicit pyro.sample statement with a literal
name.  With an observation the observed value is recorded; otherwise a
fresh value of the plate-expanded shape is drawn and recorded. -/
def sampleStmt (full : String) (d : DistSpec) (obs : Option Tensor) (s : St) :
    Option (Tensor × St) :=
  match obs with
  | some y => some (y, { s with trace := s.trace ++ [⟨SiteType.sample, full, d.family, y⟩] })
  | none =>
    match sampleValueShape s d with
    | none => none
    | some sh =>
      some (drawT sh s.rng, { s with
        rng := s.rng + numel sh,
        trace := s.trace ++ [⟨SiteType.sample, full, d.family, drawT sh s.rng⟩] })

/-- Modelled from the spec: entering pyro.plate(name, n) pushes the plate
size and records the plate as a sample site whose value is arange(n). -/
def plateEnter (nm : String) (n : Nat) (s : St) : St :=
  { s with plates := n :: s.plates,
           trace := s.trace ++
             [⟨SiteType.sample, nm, "plate", ⟨[n], (List.range n).map (fun i => (i : ℚ))⟩⟩] }

/-- Leaving a plate context pops the plate stack. -/
def plateExit (s : St) : St :=
  { s with plates := s.plates.drop 1 }

/-- The recursion bound used for every execution in this file. -/
def fuelN : Nat := 9

/-- The first dimension of a tensor: len() of the notebook. -/
def firstDim (t : Tensor) : Nat := t.shape.headD 0

/-- A module instance: its class ancestry (for isinstance), whether it is a
PyroModule (interception applies only then), and its leaf attributes. -/
structure Obj where
  cls : List String
  pyro : Bool
  attrs : PModA
deriving DecidableEq

/-- isinstance(o, c), decided on the class ancestry list. -/
def isinstance (o : Obj) (c : String) : Bool := o.cls.contains c

/-- The attributes set by Linear.__init__ of the notebook:
weight = nn.Parameter(torch.randn(in_size, out_size)), then
bias = nn.Parameter(torch.randn(out_size)). -/
def mkLinearAttrs (inS outS r : Nat) : PModA :=
  [("weight", Attr.prm (drawT [inS, outS] r)),
   ("bias", Attr.prm (drawT [outS] (r + inS * outS)))]

/-- linear = Linear(5, 2) of the notebook: a plain nn.Module. -/
def linearPlain : Obj := ⟨["Linear", "Module"], false, mkLinearAttrs 5 2 0⟩

/-- to_pyro_module_(m): converts the instance in place to a PyroModule,
keeping its attributes. -/
def toPyroModule (o : Obj) : Obj :=
  ⟨o.cls ++ ["PyroModule"], true, o.attrs⟩

/-- Linear.forward of the notebook: return self.bias + input_ @ self.weight
(so .bias is accessed before .weight). -/
def linearForward (attrs : PModA) (isPyro : Bool) (pfx : String) (input : Tensor)
    (s : St) : Option (Tensor × St) := do
  let (b, s1) ← accessAttr fuelN attrs isPyro pfx "bias" s
  let (w, s2) ← accessAttr fuelN attrs isPyro pfx "weight" s1
  let mm ← matmul2 input w
  let out ← addB b mm
  pure (out, s2)

/-- Calling a Linear-like object: the outermost call clears the per-call
sample cache, then runs forward. -/
def callLinear (o : Obj) (input : Tensor) (s : St) : Option (Tensor × St) :=
  linearForward o.attrs o.pyro "" input { s with cache := [] }

/-- example_input = torch.randn(100, 5) of the notebook. -/
def inputX : Tensor := drawT [100, 5] 500

/-- class PyroLinear(Linear, PyroModule) of the notebook, instantiated as
PyroLinear(5, 2). -/
def pyroLinearMixin : Obj :=
  ⟨["PyroLinear", "Linear", "PyroModule", "Module"], true, mkLinearAttrs 5 2 20⟩

/-- PyroModule[Linear](5, 2) of the notebook: the bracket syntax denotes the
trivial mixin class automatically. -/
def pyroLinearBracket : Obj :=
  ⟨["PyroModule[Linear]", "Linear", "PyroModule", "Module"], true, mkLinearAttrs 5 2 30⟩

/-- The initial value torch.randn(2).exp() used for the constrained bias:
a strictly positive tensor. -/
def biasInit : Tensor := mapEntries posT (drawT [2] 60)

/-- The Pyro-ized linear instance of the notebook after to_pyro_module_. -/
def linearPyro : Obj := toPyroModule linearPlain

/-- The instance after linear.bias = PyroParam(torch.randn(2).exp(),
constraint=constraints.positive). -/
def linearC : Obj :=
  { linearPyro with attrs := setAttrA linearPyro.attrs "bias" (pyroParamOf biasInit Constraint.positive) }

/-- The prior dist.Normal(0, 1).expand([5, 2]).to_event(2) of the notebook. -/
def wPrior : DistSpec := toEventD (expandD normalS [5, 2]) 2

/-- The instance after linear.weight = PyroSample(dist.Normal(0,
1).expand([5, 2]).to_event(2)). -/
def linearB : Obj :=
  { linearC with attrs := setAttrA linearC.attrs "weight" (Attr.pyroSmp (PExp.const wPrior)) }

/-- The attributes set by BayesianLinear.__init__ of the notebook:
bias with prior LogNormal(0, 1).expand([out_size]).to_event(1), then
weight with prior Normal(0, 1).expand([in_size, out_size]).to_event(2). -/
def mkBayesianLinear (inS outS : Nat) : PModA :=
  [("bias", Attr.pyroSmp (PExp.const (toEventD (expandD logNormalS [outS]) 1))),
   ("weight", Attr.pyroSmp (PExp.const (toEventD (expandD normalS [inS, outS]) 2)))]

/-- The own leaf attributes of Model(in_size, out_size) of the notebook:
obs_scale = PyroSample(dist.LogNormal(0, 1)); the nested BayesianLinear is
held as the attribute named linear. -/
def modelAttrs : PModA := [("obs_scale", Attr.pyroSmp (PExp.const logNormalS))]

/-- Model.forward of the notebook: obs_loc = self.linear(input) (a nested
call, which does not clear the sample cache and whose sites are prefixed by
the attribute path linear), then obs_scale = self.obs_scale, then inside
pyro.plate(instances, len(input)) the statement pyro.sample(obs,
dist.Normal(obs_loc, obs_scale).to_event(1), obs=output). -/
def modelForward (input : Tensor) (output : Option Tensor) (s : St) :
    Option (Tensor × St) := do
  let (obsLoc, s1) ← linearForward (mkBayesianLinear 5 2) true (fullName "" "linear") input s
  let (obsScale, s2) ← accessAttr fuelN modelAttrs true "" "obs_scale" s1
  let s3 := plateEnter "instances" (firstDim input) s2
  let d0 ← normalOfT obsLoc obsScale
  let (y, s4) ← sampleStmt "obs" (toEventD d0 1) output s3
  pure (y, plateExit s4)

/-- Calling Model(5, 2): the outermost call clears the sample cache. -/
def callModel (input : Tensor) (output : Option Tensor) (s : St) :
    Option (Tensor × St) :=
  modelForward input output { s with cache := [] }

/-- The forward of the BayesianLinear variant shown in the at-most-once
section of the notebook: weight1 = self.weight; weight2 = self.weight;
both reads are returned. -/
def doubleRead (s : St) : Option ((Tensor × Tensor) × St) := do
  let (w1, s1) ← accessAttr fuelN (mkBayesianLinear 5 2) true "" "weight" s
  let (w2, s2) ← accessAttr fuelN (mkBayesianLinear 5 2) true "" "weight" s1
  pure ((w1, w2), s2)

/-- One call of that module: the cache is cleared on entering the outermost
call. -/
def callDouble (s : St) : Option ((Tensor × Tensor) × St) :=
  doubleRead { s with cache := [] }

/-- The attribute set by NormalModel.__init__ of the notebook:
loc = PyroSample(dist.Normal(0, 1)). -/
def normalModelAttrs : PModA := [("loc", Attr.pyroSmp (PExp.const normalS))]

/-- The scalar tensor 1, the scale in dist.Normal(loc, 1). -/
def oneT : Tensor := ⟨[], [1]⟩

/-- GlobalModel.forward of the notebook: .loc is accessed outside the plate
and asserted to have empty shape, then obs is observed inside
pyro.plate(data, len(data)).  An assertion failure is modelled as none. -/
def globalForward (data : Tensor) (s : St) : Option (Tensor × St) := do
  let (loc, s1) ← accessAttr fuelN normalModelAttrs true "" "loc" s
  if loc.shape = ([] : List Nat) then
    let s2 := plateEnter "data" (firstDim data) s1
    let d ← normalOfT loc oneT
    let (y, s3) ← sampleStmt "obs" d (some data) s2
    pure (y, plateExit s3)
  else none

/-- LocalModel.forward of the notebook: .loc is first accessed inside the
plate, so it is expanded by the plate, and asserted to have shape
(len(data),). -/
def localForward (data : Tensor) (s : St) : Option (Tensor × St) := do
  let s1 := plateEnter "data" (firstDim data) s
  let (loc, s2) ← accessAttr fuelN normalModelAttrs true "" "loc" s1
  if loc.shape = [firstDim data] then
    let d ← normalOfT loc oneT
    let (y, s3) ← sampleStmt "obs" d (some data) s2
    pure (y, plateExit s3)
  else none

/-- Calling GlobalModel()(data). -/
def callGlobal (data : Tensor) (s : St) : Option (Tensor × St) :=
  globalForward data { s with cache := [] }

/-- Calling LocalModel()(data). -/
def callLocal (data : Tensor) (s : St) : Option (Tensor × St) :=
  localForward data { s with cache := [] }

/-- data = torch.randn(10) of the notebook. -/
def dataT : Tensor := drawT [10] 300

/-- The attributes of the hierarchical Model of the notebook:
dof ~ Gamma(3, 1), loc ~ Normal(0, 1),
scale = PyroSample(lambda self: dist.InverseGamma(self.dof, 1)),
x = PyroSample(lambda self: dist.Normal(self.loc, self.scale)). -/
def hierAttrs : PModA :=
  [("dof", Attr.pyroSmp (PExp.const gammaS)),
   ("loc", Attr.pyroSmp (PExp.const normalS)),
   ("scale", Attr.pyroSmp (PExp.invGammaOf "dof")),
   ("x", Attr.pyroSmp (PExp.normalOf "loc" "scale"))]

/-- The forward of the hierarchical Model: return self.x. -/
def hierForward (s : St) : Option (Tensor × St) :=
  accessAttr fuelN hierAttrs true "" "x" s

/-- Model()() for the hierarchical model. -/
def callHier (s : St) : Option (Tensor × St) :=
  hierForward { s with cache := [] }

/-- The checkable property asserted by the first notebook cell defining
Linear: running a forward function on example_input of shape (100, 5) and
checking example_output.shape == (100, 2). -/
def cell4Assert (fwd : PModA → Bool → String → Tensor → St → Option (Tensor × St)) : Bool :=
  match fwd (mkLinearAttrs 5 2 0) false "" inputX st0 with
  | some (out, _) => out.shape == [100, 2]
  | none => false

/-- An alternative forward that leaves the repository-defined computation
out and returns its input unchanged; the framework machinery is untouched. -/
def identityForward (_ : PModA) (_ : Bool) (_ : String) (input : Tensor)
    (s : St) : Option (Tensor × St) :=
  some (input, s)

/-- The trace after two successive calls of the Bayesian linear instance,
threading the framework state from the first call into the second. -/
def linearBTwice : Option (List Site) := do
  let (_, s1) ← callLinear linearB inputX st0
  let (_, s2) ← callLinear linearB inputX s1
  pure s2.trace

/-- The value of the i-th site of an optional trace (a default empty tensor
outside the range). -/
def siteValD (l : Option (List Site)) (i : Nat) : Tensor :=
  ((l.getD []).getD i ⟨SiteType.param, "", "", ⟨[], []⟩⟩).value

/-- The first weight read of each of two successive calls of the
double-read module, threading the state between the calls. -/
def doubleTwice : Option (Tensor × Tensor) := do
  let (p1, s1) ← callDouble st0
  let (p2, _) ← callDouble s1
  pure (p1.1, p2.1)

/-- A fresh Linear(5, 2) instance converted by to_pyro_module_. -/
def convLinear : Obj := toPyroModule ⟨["Linear", "Module"], false, mkLinearAttrs 5 2 40⟩

/-- Claim C1: one traced execution of the Pyro-ized linear module records
exactly the sites named bias and weight, each a record with a type in
param or sample, a name and a value, and the same names appear as keys of
the global param store; in the later state where bias is a PyroParam and
weight a PyroSample, the two sites carry the types param and sample. -/
theorem claim_C1_trace_records_named_sites :
    ((callLinear linearPyro inputX st0).map
      (fun p => (p.2.trace.map (fun site => (site.type, site.name)),
                 p.2.store.map Prod.fst)) =
      some ([(SiteType.param, "bias"), (SiteType.param, "weight")],
            ["bias", "weight"])) ∧
    ((callLinear linearB inputX st0).map
      (fun p => p.2.trace.map (fun site => (site.type, site.name))) =
      some [(SiteType.param, "bias"), (SiteType.sample, "weight")]) := ⟨rfl, rfl⟩

/-- Claim C2: after linear.bias = PyroParam(init, constraint=positive) with
a positive initial value, named_parameters lists bias_unconstrained in
place of bias, every read of .bias is the image of the stored unconstrained
parameter under the constraint transform (for every stored unconstrained
value), that transform is strictly positive everywhere, and the forward
output shape (100, 2) is unchanged. -/
theorem claim_C2_pyroparam_positive_bias :
    (namedParamsA linearPyro.attrs = ["weight", "bias"]) ∧
    (namedParamsA linearC.attrs = ["weight", "bias_unconstrained"]) ∧
    (∀ u : List ℚ,
      (accessAttr fuelN (setAttrA linearPyro.attrs "bias"
          (Attr.pyroPrm ⟨[2], u⟩ Constraint.positive)) true "" "bias" st0).map
        (fun p => p.1) = some ⟨[2], u.map posT⟩) ∧
    (∀ q : ℚ, 0 < posT q) ∧
    ((callLinear linearC inputX st0).map (fun p => p.1.shape) = some [100, 2]) := by
  refine ⟨rfl, rfl, fun u => rfl, fun q => ?_, rfl⟩
  unfold posT
  split
  · linarith
  · exact div_pos one_pos (by linarith)

/-- Claim C3: after linear.weight = PyroSample(Normal(0, 1).expand([5,
2]).to_event(2)), weight no longer appears in named_parameters, every fresh
invocation (whatever the RNG state) draws a weight of shape (5, 2), and the
weight values of two successive invocations differ. -/
theorem claim_C3_pyrosample_stochastic_weight :
    (namedParamsA linearB.attrs = ["bias_unconstrained"]) ∧
    (∀ r : Nat, (callLinear linearB inputX (stR r)).map
        (fun p => p.2.trace.map (fun site => (site.type, site.name, site.value.shape))) =
      some [(SiteType.param, "bias", [2]), (SiteType.sample, "weight", [5, 2])]) ∧
    (linearBTwice.map List.length = some 4) ∧
    (siteValD linearBTwice 1 ≠ siteValD linearBTwice 3) := by
  refine ⟨rfl, fun r => rfl, rfl, by decide⟩

/-- Claim C4: in every execution of Model(5, 2) under the trace handler
(whatever the RNG state), site names are composed automatically from the
attribute path: the nested BayesianLinear attribute linear yields the
sample sites linear.bias and linear.weight, and the top-level PyroSample
attribute yields the site obs_scale (followed by the plate and likelihood
sites). -/
theorem claim_C4_automatic_naming : ∀ r : Nat,
    (callModel inputX none (stR r)).map
      (fun p => p.2.trace.map (fun site => (site.type, site.name))) =
    some [(SiteType.sample, "linear.bias"), (SiteType.sample, "linear.weight"),
          (SiteType.sample, "obs_scale"), (SiteType.sample, "instances"),
          (SiteType.sample, "obs")] := fun _ => rfl

/-- Claim C5: calling a plain nn.Module Linear under the trace handler
records no sites and leaves the empty global param store unchanged;
to_pyro_module_ keeps the attributes of the instance, and only after the
conversion does the identical call record bias and weight both as trace
sites and as param store entries. -/
theorem claim_C5_interception_only_for_pyromodules :
    ((callLinear linearPlain inputX st0).map (fun p => (p.2.trace, p.2.store)) =
      some ([], [])) ∧
    ((toPyroModule linearPlain).attrs = linearPlain.attrs) ∧
    ((callLinear (toPyroModule linearPlain) inputX st0).map
      (fun p => (p.2.trace.map (fun site => site.name), p.2.store.map Prod.fst)) =
      some (["bias", "weight"], ["bias", "weight"])) := ⟨rfl, rfl, rfl⟩

/-- Claim C6: the three ways of creating a PyroModule are equivalent at the
interface: the mixin subclass PyroLinear(5, 2), the bracket syntax
PyroModule[Linear](5, 2), and to_pyro_module_ applied to Linear(5, 2) each
yield an instance of nn.Module, Linear and PyroModule whose call on an
input of shape (100, 5) returns an output of shape (100, 2), the same as
the original Linear. -/
theorem claim_C6_three_ways_equivalent :
    (isinstance pyroLinearMixin "Module" = true ∧
     isinstance pyroLinearMixin "Linear" = true ∧
     isinstance pyroLinearMixin "PyroModule" = true ∧
     (callLinear pyroLinearMixin inputX st0).map (fun p => p.1.shape) = some [100, 2]) ∧
    (isinstance pyroLinearBracket "Module" = true ∧
     isinstance pyroLinearBracket "Linear" = true ∧
     isinstance pyroLinearBracket "PyroModule" = true ∧
     (callLinear pyroLinearBracket inputX st0).map (fun p => p.1.shape) = some [100, 2]) ∧
    (isinstance convLinear "Module" = true ∧
     isinstance convLinear "Linear" = true ∧
     isinstance convLinear "PyroModule" = true ∧
     (callLinear convLinear inputX st0).map (fun p => p.1.shape) = some [100, 2]) ∧
    ((callLinear linearPlain inputX st0).map (fun p => p.1.shape) = some [100, 2]) :=
  ⟨⟨rfl, rfl, rfl, rfl⟩, ⟨rfl, rfl, rfl, rfl⟩, ⟨rfl, rfl, rfl, rfl⟩, rfl⟩

/-- Claim C7, counterexample: the outcome of the output-shape assert of the
first Linear cell is not a fact about the external framework alone: it
holds with the repository-defined forward (bias + input_ @ weight) and
fails when that forward is replaced by one returning its input, so the
repository-defined Linear.forward does introduce a testable behavior of
its own, contrary to the claim. -/
theorem claim_C7_counterexample :
    (cell4Assert linearForward, cell4Assert identityForward) = (true, false) := rfl

/-- Claim C7, amended: the checkable properties of the notebook exercise
the external framework together with repository-defined code; in
particular the cell asserting the (100, 2) output shape tests the
repository-defined Linear.forward (bias + input_ @ weight), since the
assert holds for that forward, fails for an alternative forward with the
framework untouched, and the shape follows from the forward formula. -/
theorem claim_C7_amended_repo_forward_testable :
    cell4Assert linearForward = true ∧
    cell4Assert identityForward = false ∧
    (callLinear linearPlain inputX st0).map (fun p => p.1.shape) = some [100, 2] :=
  ⟨rfl, rfl, rfl⟩

/-- Claim C8: within a single call of the outermost PyroModule a PyroSample
attribute is sampled at most once: for every RNG state the two successive
reads of .weight in one call agree and only one trace site is recorded,
while two separate calls draw different samples. -/
theorem claim_C8_at_most_once_per_call :
    (∀ r : Nat, (callDouble (stR r)).map (fun p => p.1.1) =
                (callDouble (stR r)).map (fun p => p.1.2)) ∧
    ((callDouble st0).map (fun p => p.2.trace.length) = some 1) ∧
    (doubleTwice.map (fun p => p.1) ≠ doubleTwice.map (fun p => p.2)) := by
  refine ⟨fun r => rfl, rfl, by decide⟩

/-- Claim C9: for a scalar prior Normal(0, 1), a first access of .loc
outside pyro.plate(data, 10) yields a value of empty shape while a first
access inside the plate yields a value expanded to shape (10,); both
GlobalModel and LocalModel run to completion (no assertion failure) on
data of length 10. -/
theorem claim_C9_plate_first_access_shape :
    ((callGlobal dataT st0).map
      (fun p => p.2.trace.map (fun site => (site.name, site.value.shape))) =
      some [("loc", []), ("data", [10]), ("obs", [10])]) ∧
    ((callLocal dataT st0).map
      (fun p => p.2.trace.map (fun site => (site.name, site.value.shape))) =
      some [("data", [10]), ("loc", [10]), ("obs", [10])]) := ⟨rfl, rfl⟩

/-- Claim C10: in the hierarchical model whose priors are callables of
self, accessing self.x triggers the sampling of self.loc, self.dof and
self.scale (the scale site carrying the InverseGamma family) before x is
drawn from Normal(loc, scale), and Model()() returns a scalar sample
without error. -/
theorem claim_C10_callable_prior_hierarchy :
    (callHier st0).map
      (fun p => (p.1.shape, p.2.trace.map (fun site => (site.name, site.fn)))) =
    some ([], [("loc", "Normal"), ("dof", "Gamma"), ("scale", "InverseGamma"),
               ("x", "Normal")]) := rfl

end PyroNb
